import Mathlib

/-!
Shallow embedding of the cmpsptr pointer-compression library
(src/rcmpsptr/src/cmpsptr.rs).

Native addresses are modelled as natural numbers below 2^64 (usize),
compressed handles as natural numbers below 2^32 (u32); every u32/usize
cast in the source is rendered as an explicit reduction modulo 2^32.
The process-wide mutable statics (_GLOBAL_NEW_MASK, _GLOBAL_MASK,
_PTR_LIST, _NULL_IDX) become an explicit GlobalState threaded through
the operations.  A Rust panic becomes an Except error carrying the
panic site; an out-of-bounds or underflowing Vec index becomes Option
none.
-/

namespace CmpsPtrModel

/-- The usize::MAX sentinel marking an unset mask. -/
def USIZE_MAX : Nat := 2 ^ 64 - 1

/-- The process-wide mutable state of cmpsptr.rs: the two global masks,
the fallback pointer table _PTR_LIST and the free-slot cursor _NULL_IDX. -/
structure GlobalState where
  globalNewMask : Nat
  globalMask : Nat
  ptrList : List Nat
  nullIdx : Nat
deriving Repr, DecidableEq

/-- State at process start: both masks at the usize::MAX sentinel,
empty fallback table, cursor 0. -/
def initState : GlobalState := ⟨USIZE_MAX, USIZE_MAX, [], 0⟩

/-- Panic sites of the embedded code. -/
inductive Panic where
  | levelNotSupported : Panic
  | cannotCompress : Nat → Panic
deriving Repr, DecidableEq

/-- Source function listed: (ptr & 1) == 1, the fallback-table tag bit. -/
def listed (ptr : Nat) : Bool := (ptr &&& 1) == 1

/-- Source function cmps_level: |CMPS_LEVEL| for CMPS_LEVEL < 1,
CMPS_LEVEL - 1 otherwise; the actual shift amount. -/
def cmps_level (CMPS_LEVEL : Int) : Nat :=
  if CMPS_LEVEL < 1 then CMPS_LEVEL.natAbs else (CMPS_LEVEL - 1).toNat

/-- First index at or after position start holding value 0, the scan of
the for-loop in list_ptr over _NULL_IDX..list_len. -/
def findZeroFrom : List Nat → Nat → Option Nat
  | [], _ => none
  | x :: xs, 0 => if x = 0 then some 0 else (findZeroFrom xs 0).map (fun i => i + 1)
  | _ :: xs, n + 1 => (findZeroFrom xs n).map (fun i => i + 1)

/-- Source function list_ptr: scans the table for a zero slot starting at
_NULL_IDX, reuses the first one found (moving the cursor past it),
otherwise appends; returns the 1-based index as u32, tagged with the low
bit unless LIST_ONLY, together with the updated global state. -/
def list_ptr (LIST_ONLY : Bool) (ptr : Nat) (s : GlobalState) : Nat × GlobalState :=
  match findZeroFrom s.ptrList s.nullIdx with
  | some i =>
    let r := i + 1
    ((if LIST_ONLY then r else (r <<< 1) ||| 1) % 2 ^ 32,
     { s with ptrList := s.ptrList.set i ptr, nullIdx := r })
  | none =>
    let len := s.ptrList.length + 1
    ((if LIST_ONLY then len else (len <<< 1) ||| 1) % 2 ^ 32,
     { s with ptrList := s.ptrList ++ [ptr], nullIdx := len })

/-- Source function unlist_ptr: at level 0 zeroes slot ptr-1; at positive
levels zeroes slot (ptr >> 1) - 1 only when the tag bit is set; at
negative levels does nothing.  An index underflow or out-of-bounds write
(a Rust panic) is none. -/
def unlist_ptr (CMPS_LEVEL : Int) (ptr : Nat) (s : GlobalState) : Option GlobalState :=
  if CMPS_LEVEL = 0 then
    if 1 ≤ ptr ∧ ptr ≤ s.ptrList.length then
      some { s with ptrList := s.ptrList.set (ptr - 1) 0 }
    else none
  else if 0 < CMPS_LEVEL then
    if listed ptr then
      if 1 ≤ ptr >>> 1 ∧ ptr >>> 1 ≤ s.ptrList.length then
        some { s with ptrList := s.ptrList.set (ptr >>> 1 - 1) 0 }
      else none
    else some s
  else some s

/-- The high-order bit pattern (ptr >> shift_bits) << shift_bits computed
by the compress! macro, with shift_bits = 32 + cmps_level. -/
def high_bits (CMPS_LEVEL : Int) (ptr : Nat) : Nat :=
  (ptr >>> (32 + cmps_level CMPS_LEVEL)) <<< (32 + cmps_level CMPS_LEVEL)

/-- The mask static selected by NEW_ALLOC: _GLOBAL_NEW_MASK or _GLOBAL_MASK. -/
def mask_of (NEW_ALLOC : Bool) (s : GlobalState) : Nat :=
  if NEW_ALLOC then s.globalNewMask else s.globalMask

/-- Write the mask static selected by NEW_ALLOC. -/
def with_mask (NEW_ALLOC : Bool) (m : Nat) (s : GlobalState) : GlobalState :=
  if NEW_ALLOC then { s with globalNewMask := m } else { s with globalMask := m }

/-- The compress! macro as instantiated by global_compress_new (NEW_ALLOC
true, static _GLOBAL_NEW_MASK) and global_compress (NEW_ALLOC false,
static _GLOBAL_MASK): sets the mask from the first pointer, shifts when
the high bits match the mask, panics at negative levels on mismatch, and
falls back to list_ptr at nonnegative levels. -/
def global_compress (CMPS_LEVEL : Int) (NEW_ALLOC : Bool) (ptr : Nat) (s : GlobalState) :
    Except Panic (Nat × GlobalState) :=
  let cl := cmps_level CMPS_LEVEL
  let m := mask_of NEW_ALLOC s
  if m = USIZE_MAX then
    .ok ((ptr >>> cl) % 2 ^ 32, with_mask NEW_ALLOC (high_bits CMPS_LEVEL ptr) s)
  else if m = high_bits CMPS_LEVEL ptr then
    .ok ((ptr >>> cl) % 2 ^ 32, s)
  else if CMPS_LEVEL < 0 then
    .error (.cannotCompress ptr)
  else
    let r := list_ptr false ptr s
    .ok (r.1, r.2)

/-- Source function check_global_mask: at level 0 every pointer goes
straight to the fallback table untagged; otherwise compress against the
mask selected by NEW_ALLOC. -/
def check_global_mask (CMPS_LEVEL : Int) (NEW_ALLOC : Bool) (ptr : Nat) (s : GlobalState) :
    Except Panic (Nat × GlobalState) :=
  if CMPS_LEVEL = 0 then
    let r := list_ptr true ptr s
    .ok (r.1, r.2)
  else global_compress CMPS_LEVEL NEW_ALLOC ptr s

/-- Source function apply_global_mask: at level 0 reads the table at
ptr - 1; at positive levels reads the table at (ptr >> 1) - 1 when the
tag bit is set; otherwise ORs in the mask selected by NEW_ALLOC.  A Rust
index underflow or out-of-bounds read is none. -/
def apply_global_mask (NEW_ALLOC : Bool) (CMPS_LEVEL : Int) (ptr : Nat) (s : GlobalState) :
    Option Nat :=
  if CMPS_LEVEL = 0 then
    if 1 ≤ ptr then s.ptrList[ptr - 1]? else none
  else if 0 < CMPS_LEVEL ∧ listed ptr then
    if 1 ≤ ptr >>> 1 then s.ptrList[ptr >>> 1 - 1]? else none
  else if NEW_ALLOC then some (ptr ||| s.globalNewMask)
  else some (ptr ||| s.globalMask)

/-- Source method CmpsPtr::get_ptr: decompress the stored u32 handle by
shifting it left by cmps_level and applying the global mask. -/
def get_ptr (CMPS_LEVEL : Int) (NEW_ALLOC : Bool) (handle : Nat) (s : GlobalState) : Option Nat :=
  apply_global_mask NEW_ALLOC CMPS_LEVEL (handle <<< cmps_level CMPS_LEVEL) s

/-- Source method CmpsPtr::new: panics when the level is outside [-3, 3],
otherwise compresses the address via check_global_mask and stores the
resulting handle. -/
def cmpsPtr_new (CMPS_LEVEL : Int) (NEW_ALLOC : Bool) (ptr : Nat) (s : GlobalState) :
    Except Panic (Nat × GlobalState) :=
  if 3 < CMPS_LEVEL ∨ CMPS_LEVEL < -3 then .error .levelNotSupported
  else check_global_mask CMPS_LEVEL NEW_ALLOC ptr s

/-- Source method CmpsPtr::new_alloc: allocates storage (the allocator's
choice of address is the argument addr) and hands it to CmpsPtr::new. -/
def cmpsPtr_new_alloc (CMPS_LEVEL : Int) (NEW_ALLOC : Bool) (addr : Nat) (s : GlobalState) :
    Except Panic (Nat × GlobalState) :=
  cmpsPtr_new CMPS_LEVEL NEW_ALLOC addr s

/-- The impl Counter for u32, increase_count: wrapping u32 increment,
stores the new count and returns it (first component the stored value,
second the returned value). -/
def u32_increase_count (c : Nat) : Nat × Nat :=
  let cnt := (c + 1) % 2 ^ 32
  (cnt, cnt)

/-- The impl Counter for u32, decrease_count: wrapping u32 decrement,
stores the new count and returns it. -/
def u32_decrease_count (c : Nat) : Nat × Nat :=
  let cnt := (c + (2 ^ 32 - 1)) % 2 ^ 32
  (cnt, cnt)

/-- The impl Counter for u32, current_count. -/
def u32_current_count (c : Nat) : Nat := c

/-- The impl Counter for u32, reset_count: stores 1. -/
def u32_reset_count (_ : Nat) : Nat := 1

/-- The impl Counter for AtomicU32, increase_count:
fetch_add(1, SeqCst) stores c + 1 (wrapping) but RETURNS the previous
value c. -/
def atomicU32_increase_count (c : Nat) : Nat × Nat :=
  ((c + 1) % 2 ^ 32, c)

/-- The impl Counter for AtomicU32, decrease_count:
fetch_min(1, SeqCst) stores min c 1 and RETURNS the previous value c;
it performs no subtraction at all. -/
def atomicU32_decrease_count (c : Nat) : Nat × Nat :=
  (min c 1, c)

/-- The impl Counter for AtomicU32, current_count: load. -/
def atomicU32_current_count (c : Nat) : Nat := c

/-- The impl Counter for AtomicU32, reset_count: store 1. -/
def atomicU32_reset_count (_ : Nat) : Nat := 1

/-- One drop of a CmpsCnt over the plain u32 counter (COW false, so
deref_mut reaches the counter without a detach): decrement the
co-located counter; deallocate exactly when the value returned by
decrease_count is 0.  First component the new count, second whether this
drop deallocated. -/
def cmpsCnt_drop (c : Nat) : Nat × Bool :=
  ((u32_decrease_count c).1, (u32_decrease_count c).2 == 0)

/-- n successive CmpsCnt::clone calls over the plain u32 counter, each
incrementing the co-located counter. -/
def cmpsCnt_cloneN : Nat → Nat → Nat
  | 0, c => c
  | n + 1, c => cmpsCnt_cloneN n (u32_increase_count c).1

/-- k successive CmpsCnt drops from count c: final count and how many of
the drops deallocated the storage. -/
def cmpsCnt_runDrops : Nat → Nat → Nat × Nat
  | 0, c => (c, 0)
  | k + 1, c =>
    let d := cmpsCnt_drop c
    let r := cmpsCnt_runDrops k d.1
    (r.1, (if d.2 then 1 else 0) + r.2)

/-- Source method CmpsCnt::ptr_mut of a COW instantiation, tracked by
the reference count c of the storage currently bound to the handle,
with an explicit recursion-depth fuel.  ptr_mut first calls detach;
detach, when the count exceeds 1, allocates a fresh copy (count reset
to 1) and then calls self.decrease_count(), which has no inherent
resolution on CmpsCnt and therefore auto-derefs through
DerefMut::deref_mut = CmpsCnt::ptr_mut, re-entering detach while
self._ptr still binds the old storage with its count unchanged; only
after that inner call returns would the decrement run and the handle be
rebound to the fresh copy (count 1).  none means the call did not
complete within the given depth. -/
def cmpsCnt_cow_ptr_mut : Nat → Nat → Option Nat
  | 0, _ => none
  | fuel + 1, c =>
    if 1 < c then
      match cmpsCnt_cow_ptr_mut fuel c with
      | none => none
      | some _ => some 1
    else some c

/-- One list-then-unlist round at level 0: list the address x (getting
the 1-based untagged handle) and immediately unlist that handle, as a
drop of the corresponding handle would. -/
def alt_step (x : Nat) (s : GlobalState) : GlobalState :=
  let r := list_ptr true x s
  (unlist_ptr 0 r.1 r.2).getD r.2

/-- k alternating list/unlist rounds from a starting state. -/
def alt_iter : Nat → GlobalState → GlobalState
  | 0, s => s
  | k + 1, s => alt_step 42 (alt_iter k s)

/-- The alignment (as a power of two) that an address must satisfy for
the shift-mask codec at a given level to be lossless: the shift amount
itself, plus one extra bit at level 1, where an odd handle would collide
with the fallback tag bit. -/
def align_req (L : Int) : Nat :=
  if 0 < L then max (cmps_level L) 1 else cmps_level L

end CmpsPtrModel

namespace CmpsPtrModel

lemma with_mask_ptrList (b : Bool) (m : Nat) (s : GlobalState) :
    (with_mask b m s).ptrList = s.ptrList := by
  cases b <;> rfl

lemma with_mask_nullIdx (b : Bool) (m : Nat) (s : GlobalState) :
    (with_mask b m s).nullIdx = s.nullIdx := by
  cases b <;> rfl

lemma mask_of_with_mask (b : Bool) (m : Nat) (s : GlobalState) :
    mask_of b (with_mask b m s) = m := by
  cases b <;> rfl

lemma mask_of_eq_of_fields (na : Bool) (s t : GlobalState)
    (h1 : t.globalNewMask = s.globalNewMask) (h2 : t.globalMask = s.globalMask) :
    mask_of na t = mask_of na s := by
  cases na <;> simp [mask_of, h1, h2]

lemma list_ptr_globalNewMask (b : Bool) (p : Nat) (s : GlobalState) :
    ((list_ptr b p s).2).globalNewMask = s.globalNewMask := by
  unfold list_ptr
  split <;> rfl

lemma list_ptr_globalMask (b : Bool) (p : Nat) (s : GlobalState) :
    ((list_ptr b p s).2).globalMask = s.globalMask := by
  unfold list_ptr
  split <;> rfl


end CmpsPtrModel

namespace CmpsPtrModel

/-- C3: for the plain u32 Counter, increase_count stores count+1 and
returns the new count and decrease_count stores count-1 and returns the
new count; but the AtomicU32 Counter violates the claim: at count 5,
increase_count stores 6 yet RETURNS the old count 5 (fetch_add returns
the previous value), and decrease_count stores min(5,1) = 1 instead of
4 and returns the old count 5 (it uses fetch_min(1), not a subtract). -/
theorem c3_atomic_counter_violates_contract :
    u32_increase_count 5 = (6, 6) ∧ u32_decrease_count 5 = (4, 4) ∧
    u32_current_count 5 = 5 ∧ u32_reset_count 5 = 1 ∧
    atomicU32_increase_count 5 = (6, 5) ∧ atomicU32_decrease_count 5 = (1, 5) ∧
    atomicU32_current_count 5 = 5 ∧ atomicU32_reset_count 5 = 1 := by
  decide

/-- C6: copy-on-write isolation fails because the code diverges:
for a CmpsCnt with COW enabled whose storage is shared (count above 1),
ptr_mut never completes at any recursion depth.  detach calls
self.decrease_count(), which auto-derefs through DerefMut::deref_mut =
ptr_mut and so re-enters detach while the count, still read from the old
storage, is unchanged. -/
theorem c6_cow_ptr_mut_diverges :
    ∀ (fuel c : Nat), 1 < c → cmpsCnt_cow_ptr_mut fuel c = none := by
  intro fuel
  induction fuel with
  | zero => intro c _; rfl
  | succ n ih =>
    intro c h
    unfold cmpsCnt_cow_ptr_mut
    rw [if_pos h, ih c h]

/-- Witness for C6: with two owners (a and its clone b), b.ptr_mut()
does not complete within recursion depth 9. -/
theorem c6_cow_ptr_mut_diverges_witness : cmpsCnt_cow_ptr_mut 9 2 = none :=
  c6_cow_ptr_mut_diverges 9 2 (by decide)

/-- C7: at every negative level in range whose mask is already set,
compressing an address whose high bits differ from the mask panics and
returns no handle; and at negative levels no successful compression ever
touches the fallback table or its cursor. -/
theorem c7_strict_negative_panics :
    (∀ (L : Int) (na : Bool) (ptr : Nat) (s : GlobalState),
      -3 ≤ L → L < 0 → mask_of na s ≠ USIZE_MAX → mask_of na s ≠ high_bits L ptr →
      cmpsPtr_new L na ptr s = .error (.cannotCompress ptr)) ∧
    (∀ (L : Int) (na : Bool) (ptr : Nat) (s : GlobalState) (h : Nat) (s' : GlobalState),
      L < 0 → cmpsPtr_new L na ptr s = .ok (h, s') →
      s'.ptrList = s.ptrList ∧ s'.nullIdx = s.nullIdx) := by
  constructor
  · intro L na ptr s h1 h2 hset hne
    rw [cmpsPtr_new, if_neg (by omega)]
    rw [check_global_mask, if_neg (by omega)]
    rw [global_compress]
    simp only [if_neg hset, if_neg hne, if_pos h2]
  · intro L na ptr s h s' hneg hok
    rw [cmpsPtr_new] at hok
    by_cases hr : 3 < L ∨ L < -3
    · rw [if_pos hr] at hok; exact absurd hok (by simp)
    · rw [if_neg hr, check_global_mask, if_neg (by omega)] at hok
      simp only [global_compress] at hok
      by_cases h1 : mask_of na s = USIZE_MAX
      · rw [if_pos h1] at hok
        simp only [Except.ok.injEq, Prod.mk.injEq] at hok
        rw [← hok.2]
        exact ⟨with_mask_ptrList na _ s, with_mask_nullIdx na _ s⟩
      · rw [if_neg h1] at hok
        by_cases h2 : mask_of na s = high_bits L ptr
        · rw [if_pos h2] at hok
          simp only [Except.ok.injEq, Prod.mk.injEq] at hok
          rw [← hok.2]
          exact ⟨rfl, rfl⟩
        · rw [if_neg h2, if_pos hneg] at hok
          exact absurd hok (by simp)

end CmpsPtrModel

namespace CmpsPtrModel

/-- Witness for C7: at level -1 with the new-allocation mask already set
to 2^40, compressing address 6 (whose high bits are 0) panics. -/
theorem c7_strict_negative_panics_witness :
    cmpsPtr_new (-1) true 6 ⟨2 ^ 40, USIZE_MAX, [], 0⟩ = .error (.cannotCompress 6) :=
  c7_strict_negative_panics.1 (-1) true 6 ⟨2 ^ 40, USIZE_MAX, [], 0⟩ (by decide) (by decide)
    (by decide) (by decide)

/-- C8: once the mask selected by a (level, origin) pair has moved off
its usize::MAX sentinel, no subsequent compress call (check_global_mask)
for that pair changes its value, whatever address is compressed. -/
theorem c8_mask_immutable (L : Int) (na : Bool) (ptr : Nat) (s : GlobalState)
    (h : Nat) (s' : GlobalState)
    (hset : mask_of na s ≠ USIZE_MAX)
    (hok : check_global_mask L na ptr s = .ok (h, s')) :
    mask_of na s' = mask_of na s := by
  rw [check_global_mask] at hok
  by_cases hL : L = 0
  · rw [if_pos hL] at hok
    simp only [Except.ok.injEq, Prod.mk.injEq] at hok
    rw [← hok.2]
    exact mask_of_eq_of_fields na s _ (list_ptr_globalNewMask true ptr s)
      (list_ptr_globalMask true ptr s)
  · rw [if_neg hL] at hok
    simp only [global_compress] at hok
    rw [if_neg hset] at hok
    by_cases h2 : mask_of na s = high_bits L ptr
    · rw [if_pos h2] at hok
      simp only [Except.ok.injEq, Prod.mk.injEq] at hok
      rw [← hok.2]
    · rw [if_neg h2] at hok
      by_cases hneg : L < 0
      · rw [if_pos hneg] at hok; exact absurd hok (by simp)
      · rw [if_neg hneg] at hok
        simp only [Except.ok.injEq, Prod.mk.injEq] at hok
        rw [← hok.2]
        exact mask_of_eq_of_fields na s _ (list_ptr_globalNewMask false ptr s)
          (list_ptr_globalMask false ptr s)

/-- Witness for C8: mask set to 0, compressing a mismatching address at
level 2 goes through the fallback table and leaves the mask at 0. -/
theorem c8_mask_immutable_witness :
    mask_of true ⟨0, USIZE_MAX, [2 ^ 34], 1⟩ = mask_of true ⟨0, USIZE_MAX, [], 0⟩ := by
  have hok : check_global_mask 2 true (2 ^ 34) ⟨0, USIZE_MAX, [], 0⟩ =
      .ok (3, ⟨0, USIZE_MAX, [2 ^ 34], 1⟩) := rfl
  exact c8_mask_immutable 2 true (2 ^ 34) ⟨0, USIZE_MAX, [], 0⟩ 3 ⟨0, USIZE_MAX, [2 ^ 34], 1⟩
    (by decide) hok

/-- C9: for every level outside [-3, 3], CmpsPtr::new (the construction
path shared by CmpsRef, CmpsUnq, CmpsCnt and CmpsShr, directly or via
new_alloc) panics with the unsupported-level abort before producing a
handle; for every level inside [-3, 3] that abort never fires. -/
theorem c9_level_range (L : Int) (na : Bool) (ptr : Nat) (s : GlobalState) :
    ((3 < L ∨ L < -3) → cmpsPtr_new L na ptr s = .error .levelNotSupported) ∧
    (-3 ≤ L → L ≤ 3 → cmpsPtr_new L na ptr s ≠ .error .levelNotSupported) := by
  constructor
  · intro hr; rw [cmpsPtr_new, if_pos hr]
  · intro h1 h2
    rw [cmpsPtr_new, if_neg (by omega), check_global_mask]
    by_cases hL : L = 0
    · rw [if_pos hL]; simp
    · rw [if_neg hL]
      simp only [global_compress]
      by_cases hm : mask_of na s = USIZE_MAX
      · rw [if_pos hm]; simp
      · rw [if_neg hm]
        by_cases hm2 : mask_of na s = high_bits L ptr
        · rw [if_pos hm2]; simp
        · rw [if_neg hm2]
          by_cases hneg : L < 0
          · rw [if_pos hneg]; simp
          · rw [if_neg hneg]; simp

/-- Witness for C9: level 4 aborts; level 3 does not fire that abort. -/
theorem c9_level_range_witness :
    cmpsPtr_new 4 true 100 initState = .error .levelNotSupported ∧
    cmpsPtr_new 3 true 100 initState ≠ .error .levelNotSupported :=
  ⟨(c9_level_range 4 true 100 initState).1 (by decide),
   (c9_level_range 3 true 100 initState).2 (by decide) (by decide)⟩

/-- C10: unlist_ptr at a positive level zeroes a fallback slot only when
the handle carries the tag bit, so an untagged (mask-path) handle leaves
the table and the cursor completely unchanged; at level 0 it always
zeroes the slot at index handle - 1; at negative levels it is a no-op.
In every branch the cursor _NULL_IDX is untouched. -/
theorem c10_unlist_tag_frame : ∀ (L : Int) (p : Nat) (s : GlobalState),
    (L < 0 → unlist_ptr L p s = some s) ∧
    (0 < L → listed p = false → unlist_ptr L p s = some s) ∧
    (0 < L → listed p = true → 1 ≤ p >>> 1 → p >>> 1 ≤ s.ptrList.length →
      unlist_ptr L p s = some { s with ptrList := s.ptrList.set (p >>> 1 - 1) 0 }) ∧
    (L = 0 → 1 ≤ p → p ≤ s.ptrList.length →
      unlist_ptr L p s = some { s with ptrList := s.ptrList.set (p - 1) 0 }) := by
  intro L p s
  refine ⟨fun hneg => ?_, fun hpos hl => ?_, fun hpos hl h1 h2 => ?_, fun h0 h1 h2 => ?_⟩
  · rw [unlist_ptr, if_neg (by omega : ¬L = 0), if_neg (by omega : ¬0 < L)]
  · simp [unlist_ptr, show ¬L = 0 by omega, hpos, hl]
  · simp [unlist_ptr, show ¬L = 0 by omega, hpos, hl, h1, h2]
  · simp [unlist_ptr, h0, h1, h2]

/-- Witness for C10: untagged handle 6 at level 2 leaves the state
unchanged; tagged handle 3 zeroes slot 0; negative level is a no-op;
level 0 zeroes slot handle - 1. -/
theorem c10_unlist_tag_frame_witness :
    unlist_ptr 2 6 ⟨0, 0, [9], 1⟩ = some ⟨0, 0, [9], 1⟩ ∧
    unlist_ptr 2 3 ⟨0, 0, [9], 1⟩ = some ⟨0, 0, [0], 1⟩ ∧
    unlist_ptr (-2) 3 ⟨0, 0, [9], 1⟩ = some ⟨0, 0, [9], 1⟩ ∧
    unlist_ptr 0 1 ⟨0, 0, [9], 1⟩ = some ⟨0, 0, [0], 1⟩ :=
  ⟨(c10_unlist_tag_frame 2 6 ⟨0, 0, [9], 1⟩).2.1 (by decide) (by decide),
   (c10_unlist_tag_frame 2 3 ⟨0, 0, [9], 1⟩).2.2.1 (by decide) (by decide) (by decide) (by decide),
   (c10_unlist_tag_frame (-2) 3 ⟨0, 0, [9], 1⟩).1 (by decide),
   (c10_unlist_tag_frame 0 1 ⟨0, 0, [9], 1⟩).2.2.2 (by decide) (by decide) (by decide)⟩

end CmpsPtrModel

namespace CmpsPtrModel

lemma u32_decrease_count_fst (c : Nat) (h1 : 1 ≤ c) (h2 : c < 2 ^ 32) :
    (u32_decrease_count c).1 = c - 1 := by
  have he : c + (2 ^ 32 - 1) = (c - 1) + 2 ^ 32 := by omega
  simp only [u32_decrease_count, he, Nat.add_mod_right]
  exact Nat.mod_eq_of_lt (by omega)

lemma u32_decrease_count_snd (c : Nat) :
    (u32_decrease_count c).2 = (u32_decrease_count c).1 := rfl

lemma cmpsCnt_cloneN_eq (n : Nat) : ∀ (c : Nat), c + n < 2 ^ 32 → cmpsCnt_cloneN n c = c + n := by
  induction n with
  | zero => intro c _; rfl
  | succ m ih =>
    intro c h
    have hinc : (u32_increase_count c).1 = c + 1 := by
      simp only [u32_increase_count]
      exact Nat.mod_eq_of_lt (by omega)
    rw [cmpsCnt_cloneN, hinc, ih (c + 1) (by omega)]
    omega

lemma cmpsCnt_runDrops_prefix (k : Nat) : ∀ (c : Nat), k < c → c < 2 ^ 32 →
    cmpsCnt_runDrops k c = (c - k, 0) := by
  induction k with
  | zero => intro c h _; simp [cmpsCnt_runDrops]
  | succ m ih =>
    intro c h h2
    have hd1 : (cmpsCnt_drop c).1 = c - 1 :=
      u32_decrease_count_fst c (by omega) h2
    have hd2 : (cmpsCnt_drop c).2 = false := by
      simp only [cmpsCnt_drop, u32_decrease_count_snd,
        u32_decrease_count_fst c (by omega) h2]
      simp only [beq_eq_false_iff_ne, ne_eq]
      omega
    rw [cmpsCnt_runDrops, hd1, hd2, ih (c - 1) (by omega) (by omega)]
    simp only [if_neg Bool.false_ne_true]
    rw [show c - 1 - m = c - (m + 1) by omega]

lemma cmpsCnt_runDrops_self : ∀ (c : Nat), 1 ≤ c → c < 2 ^ 32 →
    cmpsCnt_runDrops c c = (0, 1) := by
  intro c
  induction c with
  | zero => intro h _; omega
  | succ n ih =>
    intro _ h2
    have hd1 : (cmpsCnt_drop (n + 1)).1 = n := by
      rw [cmpsCnt_drop]
      rw [u32_decrease_count_fst (n + 1) (by omega) h2]
      omega
    have hd2 : (cmpsCnt_drop (n + 1)).2 = (n == 0) := by
      rw [cmpsCnt_drop]
      rw [u32_decrease_count_snd, u32_decrease_count_fst (n + 1) (by omega) h2]
      simp
    by_cases hn : n = 0
    · subst hn
      rw [cmpsCnt_runDrops, hd1, hd2, cmpsCnt_runDrops]
      rfl
    · rw [cmpsCnt_runDrops, hd1, hd2, ih (by omega) (by omega)]
      simp [hn]

/-- C4: a CmpsCnt over the plain u32 counter, created with count 1,
cloned N times (count N + 1) and dropped N + 1 times, deallocates the
storage exactly once: every prefix of at most N drops deallocates
nothing, and the full sequence of N + 1 drops deallocates exactly once
(at the final drop, which brings the counter to 0). -/
theorem c4_refcount_dealloc_once (N : Nat) (hN : N + 1 < 2 ^ 32) :
    (∀ k, k ≤ N → (cmpsCnt_runDrops k (cmpsCnt_cloneN N 1)).2 = 0) ∧
    (cmpsCnt_runDrops (N + 1) (cmpsCnt_cloneN N 1)).2 = 1 := by
  have hc : cmpsCnt_cloneN N 1 = N + 1 := by
    rw [cmpsCnt_cloneN_eq N 1 (by omega)]
    omega
  constructor
  · intro k hk
    rw [hc, cmpsCnt_runDrops_prefix k (N + 1) (by omega) hN]
  · rw [hc, cmpsCnt_runDrops_self (N + 1) (by omega) hN]

/-- Witness for C4: original plus 2 clones, 3 drops, one deallocation,
none before the last drop. -/
theorem c4_refcount_dealloc_once_witness :
    (cmpsCnt_runDrops 2 (cmpsCnt_cloneN 2 1)).2 = 0 ∧
    (cmpsCnt_runDrops 3 (cmpsCnt_cloneN 2 1)).2 = 1 :=
  ⟨(c4_refcount_dealloc_once 2 (by decide)).1 2 (by decide),
   (c4_refcount_dealloc_once 2 (by decide)).2⟩

end CmpsPtrModel

namespace CmpsPtrModel

lemma findZeroFrom_none_of_le : ∀ (l : List Nat) (n : Nat), l.length ≤ n →
    findZeroFrom l n = none := by
  intro l
  induction l with
  | nil => intro n _; cases n <;> rfl
  | cons x xs ih =>
    intro n h
    cases n with
    | zero => simp at h
    | succ m =>
      have : findZeroFrom xs m = none := ih m (by simpa using h)
      simp [findZeroFrom, this]

lemma set_last_replicate (k x : Nat) :
    (List.replicate k 0 ++ [x]).set k 0 = List.replicate (k + 1) 0 := by
  induction k with
  | zero => rfl
  | succ n ih =>
    simp only [List.replicate_succ, List.cons_append, List.set]
    rw [List.append_eq, ih]
    simp [List.replicate_succ]

lemma alt_step_replicate (k : Nat) (hk : k + 1 < 2 ^ 32) :
    alt_step 42 ⟨USIZE_MAX, USIZE_MAX, List.replicate k 0, k⟩ =
      ⟨USIZE_MAX, USIZE_MAX, List.replicate (k + 1) 0, k + 1⟩ := by
  have hfind : findZeroFrom (List.replicate k 0) k =
      (none : Option Nat) := findZeroFrom_none_of_le _ _ (by simp)
  rw [alt_step, list_ptr]
  simp only [hfind, List.length_replicate, if_true]
  rw [Nat.mod_eq_of_lt hk]
  rw [unlist_ptr]
  simp only [if_pos rfl, List.length_append, List.length_replicate, List.length_cons,
    List.length_nil]
  have hcond : 1 ≤ k + 1 ∧ k + 1 ≤ k + (0 + 1) := by constructor <;> omega
  rw [if_pos hcond]
  simp only [if_true, Option.getD_some]
  rw [show k + 1 - 1 = k by omega, set_last_replicate]

lemma alt_iter_replicate : ∀ (k : Nat), k < 2 ^ 32 →
    alt_iter k initState = ⟨USIZE_MAX, USIZE_MAX, List.replicate k 0, k⟩ := by
  intro k
  induction k with
  | zero => intro _; rfl
  | succ n ih =>
    intro h
    rw [alt_iter, ih (by omega), alt_step_replicate n (by omega)]

/-- C5: freed fallback-table slots are never reused, refuting the claim
that alternating lists and unlists keep the slot count bounded: after k
alternating rounds of listing one address at level 0 and unlisting the
returned handle, starting from the initial state, the table holds k
slots, all free (zero), and the scan cursor sits at k, past every free
slot — each new list call therefore appends a fresh slot and the table
grows without bound (one slot per round, up to the u32 handle limit). -/
theorem c5_freed_slots_never_reused (k : Nat) (hk : k < 2 ^ 32) :
    alt_iter k initState = ⟨USIZE_MAX, USIZE_MAX, List.replicate k 0, k⟩ :=
  alt_iter_replicate k hk

/-- Witness for C5: three list/unlist rounds leave a table of three free
slots with the cursor at 3. -/
theorem c5_freed_slots_never_reused_witness :
    alt_iter 3 initState = ⟨USIZE_MAX, USIZE_MAX, List.replicate 3 0, 3⟩ :=
  c5_freed_slots_never_reused 3 (by decide)

end CmpsPtrModel

namespace CmpsPtrModel

lemma lor_eq_add_of_lt {x y n : Nat} (hx : x < 2 ^ n) (hy : 2 ^ n ∣ y) :
    x ||| y = y + x := by
  obtain ⟨q, rfl⟩ := hy
  refine Nat.eq_of_testBit_eq fun j => ?_
  rw [Nat.testBit_lor, Nat.testBit_mul_pow_two_add q hx j, Nat.testBit_mul_pow_two]
  by_cases hj : j < n
  · simp [hj, show ¬n ≤ j by omega]
  · have hxj : x < 2 ^ j :=
      lt_of_lt_of_le hx (Nat.pow_le_pow_right (by omega) (by omega))
    simp [hj, show n ≤ j by omega, Nat.testBit_lt_two_pow hxj]

lemma mask_low_part (a cl : Nat) (hal : 2 ^ cl ∣ a) :
    ((a >>> cl) % 2 ^ 32) <<< cl = a % 2 ^ (32 + cl) := by
  obtain ⟨b, rfl⟩ := hal
  rw [Nat.shiftRight_eq_div_pow, Nat.shiftLeft_eq]
  rw [Nat.mul_div_cancel_left b (Nat.two_pow_pos cl)]
  rw [Nat.pow_add, Nat.mul_comm (2 ^ 32) (2 ^ cl)]
  rw [Nat.mul_mod_mul_left]
  exact Nat.mul_comm _ _

lemma mask_roundtrip (L : Int) (a : Nat) (hal : 2 ^ cmps_level L ∣ a) :
    (((a >>> cmps_level L) % 2 ^ 32) <<< cmps_level L) ||| high_bits L a = a := by
  rw [mask_low_part a (cmps_level L) hal, high_bits]
  rw [Nat.shiftRight_eq_div_pow, Nat.shiftLeft_eq]
  rw [lor_eq_add_of_lt (Nat.mod_lt a (Nat.two_pow_pos _))
    (dvd_mul_left (2 ^ (32 + cmps_level L)) (a / 2 ^ (32 + cmps_level L)))]
  rw [Nat.mul_comm]
  exact Nat.div_add_mod a _

lemma two_pow_cl_dvd (L : Int) (a : Nat) (h : 2 ^ align_req L ∣ a) :
    2 ^ cmps_level L ∣ a := by
  refine dvd_trans (pow_dvd_pow 2 ?_) h
  rw [align_req]
  split
  · exact le_max_left _ _
  · exact le_refl _

lemma listed_eq_false_of_even (x : Nat) (h : x % 2 = 0) : listed x = false := by
  simp [listed, Nat.and_one_is_mod, h]

lemma listed_handle_eq_false (L : Int) (a : Nat) (hL : 0 < L)
    (h : 2 ^ align_req L ∣ a) :
    listed (((a >>> cmps_level L) % 2 ^ 32) <<< cmps_level L) = false := by
  apply listed_eq_false_of_even
  by_cases hcl : cmps_level L = 0
  · rw [hcl, Nat.shiftLeft_zero, Nat.shiftRight_zero]
    have h2 : 2 ∣ a := by
      rw [align_req, if_pos hL, hcl] at h
      simpa using h
    omega
  · rw [Nat.shiftLeft_eq]
    exact Nat.mod_eq_zero_of_dvd (Dvd.dvd.mul_left (dvd_pow_self 2 hcl) _)

lemma findZeroFrom_lt_length : ∀ (l : List Nat) (n i : Nat),
    findZeroFrom l n = some i → i < l.length := by
  intro l
  induction l with
  | nil => intro n i h; cases n <;> simp [findZeroFrom] at h
  | cons x xs ih =>
    intro n i h
    cases n with
    | zero =>
      rw [findZeroFrom] at h
      by_cases hx : x = 0
      · rw [if_pos hx] at h
        simp only [Option.some.injEq] at h
        simp only [List.length_cons]
        omega
      · rw [if_neg hx] at h
        cases hfz : findZeroFrom xs 0 with
        | none => rw [hfz] at h; simp at h
        | some j =>
          rw [hfz] at h
          simp only [Option.map_some', Option.some.injEq] at h
          have := ih 0 j hfz
          simp only [List.length_cons]
          omega
    | succ m =>
      rw [findZeroFrom] at h
      cases hfz : findZeroFrom xs m with
      | none => rw [hfz] at h; simp at h
      | some j =>
        rw [hfz] at h
        simp only [Option.map_some', Option.some.injEq] at h
        have := ih m j hfz
        simp only [List.length_cons]
        omega

end CmpsPtrModel

namespace CmpsPtrModel

lemma get_ptr_mask_path (L : Int) (addr : Nat) (s' : GlobalState)
    (hL0 : L ≠ 0)
    (halign : 2 ^ align_req L ∣ addr)
    (hmask : s'.globalNewMask = high_bits L addr) :
    get_ptr L true ((addr >>> cmps_level L) % 2 ^ 32) s' = some addr := by
  rw [get_ptr, apply_global_mask, if_neg hL0]
  have hnot : ¬(0 < L ∧
      listed (((addr >>> cmps_level L) % 2 ^ 32) <<< cmps_level L) = true) := by
    rintro ⟨hpos, hlist⟩
    rw [listed_handle_eq_false L addr hpos halign] at hlist
    simp at hlist
  rw [if_neg hnot, if_pos rfl, hmask,
    mask_roundtrip L addr (two_pow_cl_dvd L addr halign)]

/-- C1 (amended): decompress after compress returns the original address
for every level in [-3, 3] and every address from the allocation path
PROVIDED the address is aligned to the level's shift amount (one extra
bit of alignment at level 1) and the relevant mask is still unset or
matches the address's high bits (at level 0, provided the table has room
below the u32 handle limit).  The unamended claim fails for unaligned
addresses, which the allocation path can return. -/
theorem c1_roundtrip_aligned (L : Int) (addr : Nat) (s : GlobalState)
    (h : Nat) (s' : GlobalState)
    (hL1 : -3 ≤ L) (hL2 : L ≤ 3)
    (halign : 2 ^ align_req L ∣ addr)
    (hroom : L = 0 → s.ptrList.length + 1 < 2 ^ 32)
    (hmask : L ≠ 0 → mask_of true s = USIZE_MAX ∨ mask_of true s = high_bits L addr)
    (hok : cmpsPtr_new_alloc L true addr s = .ok (h, s')) :
    get_ptr L true h s' = some addr := by
  simp only [cmpsPtr_new_alloc, cmpsPtr_new, check_global_mask] at hok
  rw [if_neg (show ¬(3 < L ∨ L < -3) by omega)] at hok
  by_cases hL0 : L = 0
  · rw [if_pos hL0] at hok
    subst hL0
    cases hfz : findZeroFrom s.ptrList s.nullIdx with
    | some i =>
      have hlist : list_ptr true addr s = ((i + 1) % 2 ^ 32,
          ⟨s.globalNewMask, s.globalMask, s.ptrList.set i addr, i + 1⟩) := by
        rw [list_ptr, hfz]
        rfl
      rw [hlist] at hok
      simp only [Except.ok.injEq, Prod.mk.injEq] at hok
      obtain ⟨hh, hs⟩ := hok
      have hilt : i < s.ptrList.length := findZeroFrom_lt_length _ _ _ hfz
      have hmod : (i + 1) % 2 ^ 32 = i + 1 := by
        have := hroom rfl
        exact Nat.mod_eq_of_lt (by omega)
      rw [← hs, ← hh, hmod, get_ptr]
      have hc0 : cmps_level 0 = 0 := rfl
      rw [apply_global_mask, if_pos rfl, hc0, Nat.shiftLeft_zero]
      rw [if_pos (by omega : 1 ≤ i + 1)]
      rw [show i + 1 - 1 = i by omega]
      exact List.getElem?_set_self hilt
    | none =>
      have hlist : list_ptr true addr s = ((s.ptrList.length + 1) % 2 ^ 32,
          ⟨s.globalNewMask, s.globalMask, s.ptrList ++ [addr],
            s.ptrList.length + 1⟩) := by
        rw [list_ptr, hfz]
        rfl
      rw [hlist] at hok
      simp only [Except.ok.injEq, Prod.mk.injEq] at hok
      obtain ⟨hh, hs⟩ := hok
      have hmod : (s.ptrList.length + 1) % 2 ^ 32 = s.ptrList.length + 1 := by
        have := hroom rfl
        exact Nat.mod_eq_of_lt (by omega)
      rw [← hs, ← hh, hmod, get_ptr]
      have hc0 : cmps_level 0 = 0 := rfl
      rw [apply_global_mask, if_pos rfl, hc0, Nat.shiftLeft_zero]
      rw [if_pos (by omega : 1 ≤ s.ptrList.length + 1)]
      rw [show s.ptrList.length + 1 - 1 = s.ptrList.length by omega]
      exact List.getElem?_concat_length s.ptrList addr
  · rw [if_neg hL0] at hok
    simp only [global_compress] at hok
    by_cases hMAX : mask_of true s = USIZE_MAX
    · rw [if_pos hMAX] at hok
      simp only [Except.ok.injEq, Prod.mk.injEq] at hok
      obtain ⟨hh, hs⟩ := hok
      rw [← hh, ← hs]
      exact get_ptr_mask_path L addr _ hL0 halign rfl
    · rw [if_neg hMAX] at hok
      have hm2 : mask_of true s = high_bits L addr := (hmask hL0).resolve_left hMAX
      rw [if_pos hm2] at hok
      simp only [Except.ok.injEq, Prod.mk.injEq] at hok
      obtain ⟨hh, hs⟩ := hok
      rw [← hh, ← hs]
      exact get_ptr_mask_path L addr s hL0 halign hm2

/-- Counterexample for C1 as stated: at level 3, compressing address 2
(a possible return of the allocation path for a type of alignment
below 4) from the initial state yields handle 0, which decompresses to
0, not 2 — the two low bits are shifted away and lost. -/
theorem c1_roundtrip_counterexample :
    cmpsPtr_new_alloc 3 true 2 initState = .ok (0, ⟨0, USIZE_MAX, [], 0⟩) ∧
    get_ptr 3 true 0 ⟨0, USIZE_MAX, [], 0⟩ = some 0 ∧ (0 : Nat) ≠ 2 :=
  ⟨rfl, by decide, by decide⟩

/-- Witness for C1 (amended): at level 3 the 4-aligned address
2^35 + 8 compresses from the initial state to handle 2 (setting the mask
to 2^35) and decompresses back to 2^35 + 8. -/
theorem c1_roundtrip_aligned_witness :
    get_ptr 3 true 2 ⟨2 ^ 35, USIZE_MAX, [], 0⟩ = some (2 ^ 35 + 8) := by
  have hok : cmpsPtr_new_alloc 3 true (2 ^ 35 + 8) initState =
      .ok (2, ⟨2 ^ 35, USIZE_MAX, [], 0⟩) := rfl
  exact c1_roundtrip_aligned 3 (2 ^ 35 + 8) initState 2 ⟨2 ^ 35, USIZE_MAX, [], 0⟩
    (by decide) (by decide) (by norm_num : (4 : Nat) ∣ 2 ^ 35 + 8)
    (fun hc => absurd hc (by decide)) (fun _ => Or.inl (by decide)) hok

/-- C2: once the new-allocation mask at level 2 is set to 2^33,
compressing the mismatching address 2^34 falls back to the table and
returns the tagged handle 3, but get_ptr does NOT decompress it through
the table: it shifts the handle left before testing the tag bit, so the
tag is destroyed and the result is 6 | mask = 2^33 + 6 instead of 2^34.
At level 1, where the shift amount is 0, the same tagged handle resolves
through the table correctly, showing the tag mechanism is intended to
work and is broken at levels 2 and 3 by the shift-before-test order. -/
theorem c2_fallback_decompress_broken :
    check_global_mask 2 true (2 ^ 34) ⟨2 ^ 33, USIZE_MAX, [], 0⟩ =
      .ok (3, ⟨2 ^ 33, USIZE_MAX, [2 ^ 34], 1⟩) ∧
    get_ptr 2 true 3 ⟨2 ^ 33, USIZE_MAX, [2 ^ 34], 1⟩ = some (2 ^ 33 + 6) ∧
    (2 ^ 33 + 6 : Nat) ≠ 2 ^ 34 ∧
    get_ptr 1 true 3 ⟨2 ^ 33, USIZE_MAX, [2 ^ 34], 1⟩ = some (2 ^ 34) :=
  ⟨rfl, by decide, by decide, by decide⟩

end CmpsPtrModel
